import Mathlib

/-!
Verification development for the veridoc-ai intent verification and ledger
crediting pipeline.  The definitions below are shallow embeddings of the
TypeScript source: the intent construction utilities
(`createTokenTransferIntent`, `calculateDeadline`, `isIntentValid` from the
Defuse intent helpers), and the relay endpoint `POST` that verifies a
signature, extracts a deposit amount from the signed message, and credits a
MongoDB-backed per-account ledger.

JavaScript numbers appearing in comparisons are modelled by `JSNum`
(NaN / signed infinity / a rational value); ledger balances are integers
(fixed-point, 6 implied decimals) and display amounts are rationals.
Runtime builtins with no interesting structure for the claims (Ed25519
verification, base64/hex byte decoding, `JSON.parse`) are abstracted into a
`RelayEnv` parameter; everything branch-relevant (field presence checks,
signature-format dispatch, the amount regex, `parseFloat`, the credit
arithmetic) is embedded concretely.
-/

namespace Veridoc

/-- Model of a JavaScript number as far as the embedded code observes it:
`NaN`, a signed infinity, or an exact rational value. -/
inductive JSNum where
  | nan : JSNum
  | inf (pos : Bool) : JSNum
  | val (q : ℚ) : JSNum
deriving DecidableEq, Repr

namespace JSNum

/-- `isNaN(x)` in JavaScript. -/
def isNaN : JSNum → Bool
  | .nan => true
  | _ => false

/-- The JavaScript comparison `x <= 0`: false for NaN and +Infinity,
true for -Infinity, and the rational comparison otherwise. -/
def le0 : JSNum → Bool
  | .nan => false
  | .inf pos => !pos
  | .val q => q ≤ 0

/-- Extract the rational value; NaN and infinities (which the call sites
below are proven not to produce) map to 0. -/
def toRat : JSNum → ℚ
  | .val q => q
  | _ => 0

end JSNum

/-- Whitespace as trimmed by `parseFloat` and matched by the regex class
`\s` (ASCII fragment: TAB through CR, and space). -/
def jsIsWs (c : Char) : Bool :=
  c = ' ' || (9 ≤ c.toNat && c.toNat ≤ 13)

/-- Numeric value of a list of decimal digit characters. -/
def digitsVal (ds : List Char) : ℕ :=
  ds.foldl (fun acc c => 10 * acc + (c.toNat - 48)) 0

/-- `10^e` for an integer exponent `e`, as a rational. -/
def powTen (e : ℤ) : ℚ :=
  if 0 ≤ e then ((10 : ℚ) ^ e.toNat) else 1 / (10 : ℚ) ^ (-e).toNat

/-- Split off the longest run of decimal digits. -/
def spanDigits (cs : List Char) : List Char × List Char :=
  cs.span Char.isDigit

/-- The optional exponent part of a decimal literal (`e`/`E`, optional
sign, digits); if no digit follows the marker the exponent part is not
consumed, exactly as `parseFloat` takes the longest valid literal prefix. -/
def parseExponent (cs : List Char) : ℤ :=
  match cs with
  | 'e' :: rest | 'E' :: rest =>
    match rest with
    | '+' :: rest2 =>
      (match spanDigits rest2 with
       | ([], _) => 0
       | (ds, _) => (digitsVal ds : ℤ))
    | '-' :: rest2 =>
      (match spanDigits rest2 with
       | ([], _) => 0
       | (ds, _) => -(digitsVal ds : ℤ))
    | _ =>
      (match spanDigits rest with
       | ([], _) => 0
       | (ds, _) => (digitsVal ds : ℤ))
  | _ => 0

/-- Syntactic outcome of scanning a string for a float literal: no valid
literal (NaN), a signed `Infinity`, or sign, integer digits, fraction
digits and exponent of the longest decimal-literal prefix. -/
inductive ScanResult where
  | nan : ScanResult
  | inf (pos : Bool) : ScanResult
  | lit (neg : Bool) (intDigits fracDigits : List Char) (exp : ℤ) : ScanResult
deriving DecidableEq, Repr

/-- The scanning phase of `parseFloat`: skip leading whitespace, take an
optional sign, accept the literal `Infinity`, otherwise take the longest
`digits [. digits] [exponent]` prefix; no digit at all means NaN. -/
def scanFloat (s : String) : ScanResult :=
  let cs := s.toList.dropWhile jsIsWs
  let (neg, cs2) :=
    match cs with
    | '-' :: rest => (true, rest)
    | '+' :: rest => (false, rest)
    | _ => (false, cs)
  if cs2.take 8 = "Infinity".toList then .inf (!neg)
  else
    let ip := cs2.takeWhile Char.isDigit
    let r1 := cs2.dropWhile Char.isDigit
    let (fp, r2) :=
      match r1 with
      | '.' :: rest => (rest.takeWhile Char.isDigit, rest.dropWhile Char.isDigit)
      | _ => ([], r1)
    if ip = [] ∧ fp = [] then .nan
    else .lit neg ip fp (parseExponent r2)

/-- Numeric value of a scanned decimal literal. -/
def litVal (neg : Bool) (intDigits fracDigits : List Char) (exp : ℤ) : ℚ :=
  (if neg then (-1 : ℚ) else 1) *
    ((digitsVal intDigits : ℚ) + (digitsVal fracDigits : ℚ) / (10 : ℚ) ^ fracDigits.length) *
    powTen exp

/-- Shallow embedding of the JavaScript builtin `parseFloat`: the scanned
literal evaluated as a rational, or NaN / signed Infinity. -/
def jsParseFloat (s : String) : JSNum :=
  match scanFloat s with
  | .nan => .nan
  | .inf pos => .inf pos
  | .lit neg ip fp e => .val (litVal neg ip fp e)

/-! ## Intent construction (`createTokenTransferIntent` and friends) -/

/-- The `action` field of a `TokenTransferIntent` (the `type` tag is the
constant string `"token_transfer"`). -/
structure IntentAction where
  signerId : String
  receiverId : String
  tokenIn : String
  amountIn : String
  tokenOut : String
  amountOut : Option String
deriving DecidableEq, Repr

/-- A token-transfer intent as built by the Defuse helper: a nonce string,
an absolute deadline in milliseconds, and the transfer action.  The open
`metadata` mapping is carried as an association list of opaque values. -/
structure TokenTransferIntent where
  nonce : String
  deadline : ℚ
  action : IntentAction
  metadata : List (String × String)
deriving DecidableEq, Repr

/-- Options accepted by `createTokenTransferIntent`; `deadlineMinutes`
is `none` when the caller omits it (the destructuring default 30 applies
only to `undefined`). -/
structure CreateIntentOptions where
  signerId : String
  receiverId : String
  tokenIn : String
  amountIn : String
  tokenOut : String
  amountOut : Option String
  deadlineMinutes : Option ℚ
  metadata : List (String × String)
deriving DecidableEq, Repr

/-- `generateNonce`: current time in milliseconds and a random integer in
`[0, 1_000_000)`, joined by a dash.  Both clock and randomness are passed
in explicitly. -/
def generateNonce (now : ℤ) (random : ℕ) : String :=
  toString now ++ "-" ++ toString random

/-- `calculateDeadline`: `Date.now() + minutes * 60 * 1000`. -/
def calculateDeadline (now : ℤ) (minutes : ℚ) : ℚ :=
  (now : ℚ) + minutes * 60 * 1000

/-- `createTokenTransferIntent`: validate the options (empty strings are
falsy, so `!signerId` etc. test emptiness), then assemble the intent with a
fresh nonce and the computed deadline.  A thrown `Error` is an `Except.error`
carrying the message. -/
def createTokenTransferIntent (now : ℤ) (random : ℕ)
    (options : CreateIntentOptions) : Except String TokenTransferIntent :=
  if options.signerId = "" ∨ options.receiverId = "" then
    .error "signerId y receiverId son requeridos"
  else if options.tokenIn = "" ∨ options.tokenOut = "" ∨ options.amountIn = "" then
    .error "tokenIn, tokenOut y amountIn son requeridos"
  else if (jsParseFloat options.amountIn).le0 then
    .error "amountIn debe ser mayor a 0"
  else
    .ok
      { nonce := generateNonce now random
        deadline := calculateDeadline now (options.deadlineMinutes.getD 30)
        action :=
          { signerId := options.signerId
            receiverId := options.receiverId
            tokenIn := options.tokenIn
            amountIn := options.amountIn
            tokenOut := options.tokenOut
            amountOut := options.amountOut }
        metadata := options.metadata }

/-- `isIntentValid`: `Date.now() < intent.deadline`. -/
def isIntentValid (now : ℤ) (intent : TokenTransferIntent) : Bool :=
  (now : ℚ) < intent.deadline

/-! ## JSON values and the relay request body -/

/-- A JavaScript value as produced by `JSON.parse`. -/
inductive JValue where
  | str (s : String)
  | num (q : ℚ)
  | bool (b : Bool)
  | null
  | arr (elems : List JValue)
  | obj (fields : List (String × JValue))

/-- Property lookup on a parsed JSON object; with duplicate keys
`JSON.parse` keeps the last occurrence. -/
def lookupField (fields : List (String × JValue)) (key : String) : Option JValue :=
  (fields.reverse.find? (fun p => p.1 == key)).map Prod.snd

/-- JavaScript truthiness of a `JValue`. -/
def jTruthy : JValue → Bool
  | .str s => s ≠ ""
  | .num q => q ≠ 0
  | .bool b => b
  | .null => false
  | .arr _ => true
  | .obj _ => true

/-- The evaluation of `parsedMessage.message || ""` followed by use as a
string (`messageText.match(...)`): property access on `null` throws, a
truthy non-string field value makes `.match` throw (both `none`, caught by
the surrounding handler), any falsy field value and any missing field give
`""`, a non-empty string field gives itself. -/
def messageTextOf : JValue → Option String
  | .null => none
  | .obj fields =>
    match lookupField fields "message" with
    | none => some ""
    | some v =>
      if jTruthy v then
        match v with
        | .str s => some s
        | _ => none
      else some ""
  | _ => some ""

/-- The `signature` field of the request body: a string, a JSON array of
numbers, a `Uint8Array`, or some other (truthy) value. -/
inductive JSig where
  | str (s : String)
  | arr (ns : List ℕ)
  | u8 (ns : List ℕ)
  | objOther
deriving DecidableEq, Repr

/-- JavaScript falsiness of the `signature` value (`!signature`): the empty
string is falsy, arrays and other objects are truthy. -/
def sigFalsy : JSig → Bool
  | .str s => s = ""
  | _ => false

/-- The relay request body `{ accountId, message, signature, publicKey }`;
absent string fields are modelled as `""` (both are falsy, and the endpoint
only tests falsiness). -/
structure RelayRequest where
  accountId : String
  message : String
  signature : JSig
  publicKey : String

/-- Runtime builtins the endpoint calls, abstracted: `PublicKey.fromString`
(`none` models a throw), `PublicKey.verify`, `Buffer.from(_, "hex")`,
`Buffer.from(_, "base64")` (neither throws), and `JSON.parse` (`none`
models a throw). -/
structure RelayEnv where
  parsePublicKey : String → Option String
  verify : String → String → List ℕ → Bool
  decodeHex : String → List ℕ
  decodeBase64 : String → List ℕ
  jsonParse : String → Option JValue

/-- `s.startsWith(pre)` on JavaScript strings. -/
def jsStartsWith (s pre : String) : Bool :=
  s.toList.take pre.length == pre.toList

/-- Convert the `signature` field to bytes: a `"0x"`-prefixed string is
hex-decoded from the rest, any other string is base64-decoded, an array
goes through `Uint8Array.from` (coercion modulo 256), a `Uint8Array` is
used as-is, and anything else is rejected (`none`, answered 400). -/
def decodeSignature (env : RelayEnv) : JSig → Option (List ℕ)
  | .str s =>
    some (if jsStartsWith s "0x" then env.decodeHex (s.drop 2) else env.decodeBase64 s)
  | .arr ns => some (ns.map (· % 256))
  | .u8 ns => some ns
  | .objOther => none

/-! ## Amount extraction: the regex `/Deposit\s+([\d.]+)\s+USDT/i` -/

/-- The character class `[\d.]`. -/
def isAmtChar (c : Char) : Bool :=
  c.isDigit || c = '.'

/-- Match a fixed pattern case-insensitively at the head of the input,
returning the rest on success. -/
def dropPatCI (pat cs : List Char) : Option (List Char) :=
  if (cs.take pat.length).map Char.toLower == pat.map Char.toLower then
    some (cs.drop pat.length)
  else none

/-- Try to match `Deposit\s+([\d.]+)\s+USDT` (case-insensitive) starting at
the head of the input, returning the captured `[\d.]+` group.  The greedy
spans are exact here because `\s`, `[\d.]` and the letter `U` are pairwise
disjoint, so no backtracking can succeed where the greedy match fails. -/
def matchDepositAt (cs : List Char) : Option String :=
  match dropPatCI "Deposit".toList cs with
  | none => none
  | some r1 =>
    let (ws1, r2) := r1.span jsIsWs
    if ws1 = [] then none
    else
      let (amt, r3) := r2.span isAmtChar
      if amt = [] then none
      else
        let (ws2, r4) := r3.span jsIsWs
        if ws2 = [] then none
        else
          match dropPatCI "USDT".toList r4 with
          | none => none
          | some _ => some (String.mk amt)

/-- Leftmost match: `String.prototype.match` with a non-global regex scans
from each successive position and returns the first match. -/
def findDepositAmountAux : List Char → Option String
  | [] => none
  | c :: rest =>
    match matchDepositAt (c :: rest) with
    | some cap => some cap
    | none => findDepositAmountAux rest

/-- `messageText.match(/Deposit\s+([\d.]+)\s+USDT/i)`, returning the first
capture group when the regex matches. -/
def findDepositAmount (s : String) : Option String :=
  findDepositAmountAux s.toList

/-- Outcome of the message-parsing step of the endpoint (step 2). -/
inductive ExtractResult where
  | malformed
  | missing
  | invalid
  | extracted (amount : ℚ) (messageText : String)

/-- Step 2 of the endpoint: `JSON.parse` the message (a throw, or a later
throw from using a truthy non-string `message` field, lands in the catch
block: `malformed`), extract the amount with the deposit regex (`missing`
when it does not match), `parseFloat` the capture and reject NaN or
non-positive amounts (`invalid`). -/
def extractAmount (env : RelayEnv) (message : String) : ExtractResult :=
  match env.jsonParse message with
  | none => .malformed
  | some parsedMessage =>
    match messageTextOf parsedMessage with
    | none => .malformed
    | some messageText =>
      match findDepositAmount messageText with
      | none => .missing
      | some cap =>
        if (jsParseFloat cap).isNaN || (jsParseFloat cap).le0 then .invalid
        else .extracted (jsParseFloat cap).toRat messageText

/-! ## The ledger (MongoDB `User` documents) and the credit step -/

/-- A transaction subdocument: `type`, `status`, `amount` (display units),
and the metadata fields the endpoint writes (`accountId`, `message`,
`timestamp`). -/
structure Transaction where
  type : String
  status : String
  amount : ℚ
  metaAccountId : String
  metaMessage : String
  metaTimestamp : ℤ

/-- A `User` document: unique `accountId`, fixed-point `balance`
(6 implied decimals), and the append-only transaction list. -/
structure Account where
  accountId : String
  balance : ℤ
  transactions : List Transaction

/-- The persisted collection of `User` documents. -/
abbrev Ledger := List Account

/-- `User.findOne({ accountId })`. -/
def findUser (l : Ledger) (accountId : String) : Option Account :=
  l.find? (fun a => a.accountId == accountId)

/-- Persist a document: replace the document with this `accountId` when
present (the `save` of a loaded document), insert it otherwise (the save
following `User.create`). -/
def saveUser (l : Ledger) (u : Account) : Ledger :=
  if (findUser l u.accountId).isSome then
    l.map (fun a => if a.accountId == u.accountId then u else a)
  else l ++ [u]

/-- The response value of the endpoint. -/
inductive RelayResult where
  | ok (newBalance : ℚ) (transaction : Transaction) (accountId : String)
  | err (status : ℕ) (error : String)

/-- Step 3 of the endpoint: get-or-create the user, add
`Math.floor(depositAmount * 1_000_000)` to the balance, push the
`intent_deposit` transaction, save, and answer with the balance converted
back to display units. -/
def creditUser (now : ℤ) (l : Ledger) (accountId : String) (depositAmount : ℚ)
    (messageText : String) : RelayResult × Ledger :=
  let user :=
    match findUser l accountId with
    | some u => u
    | none => { accountId := accountId, balance := 0, transactions := [] }
  let usdtAmountWithDecimals : ℤ := ⌊depositAmount * 1000000⌋
  let transaction : Transaction :=
    { type := "intent_deposit"
      status := "completed"
      amount := depositAmount
      metaAccountId := accountId
      metaMessage := messageText
      metaTimestamp := now }
  let updated : Account :=
    { user with
        balance := user.balance + usdtAmountWithDecimals
        transactions := user.transactions ++ [transaction] }
  (.ok ((updated.balance : ℚ) / 1000000) transaction accountId, saveUser l updated)

/-- The relay endpoint `POST /api/intents/relay`: field-presence gate
(400), public-key parsing and signature decoding (a parse throw is caught
as 401, an unrecognized signature type is 400), signature verification
(401 on mismatch), amount extraction (400 variants), then the credit. -/
def POST (env : RelayEnv) (now : ℤ) (l : Ledger) (req : RelayRequest) :
    RelayResult × Ledger :=
  if req.accountId = "" ∨ req.message = "" ∨ sigFalsy req.signature ∨ req.publicKey = "" then
    (.err 400 "Missing required fields: accountId, message, signature, and publicKey are required", l)
  else
    match env.parsePublicKey req.publicKey with
    | none => (.err 401 "Signature verification failed", l)
    | some publicKeyObj =>
      match decodeSignature env req.signature with
      | none => (.err 400 "Invalid signature format", l)
      | some signatureBytes =>
        if !(env.verify publicKeyObj req.message signatureBytes) then
          (.err 401 "Invalid signature: signature does not match message and public key", l)
        else
          match extractAmount env req.message with
          | .malformed => (.err 400 "Invalid message format: must be valid JSON", l)
          | .missing => (.err 400 "Could not extract amount from message", l)
          | .invalid => (.err 400 "Invalid amount in message", l)
          | .extracted depositAmount messageText =>
            creditUser now l req.accountId depositAmount messageText

/-- A sequence of relay calls, threading the persistent ledger. -/
def processAll (env : RelayEnv) (now : ℤ) (l : Ledger) (reqs : List RelayRequest) : Ledger :=
  reqs.foldl (fun acc req => (POST env now acc req).snd) l

/-! ## Derived observations and invariants -/

/-- The stored fixed-point balance of an account (0 when the account does
not exist yet, matching lazy creation). -/
def balanceOf (l : Ledger) (accountId : String) : ℤ :=
  ((findUser l accountId).map Account.balance).getD 0

/-- The stored transaction list of an account. -/
def txsOf (l : Ledger) (accountId : String) : List Transaction :=
  ((findUser l accountId).map Account.transactions).getD []

/-- The transaction the endpoint appends for a credit. -/
def depositTx (now : ℤ) (accountId : String) (amount : ℚ) (messageText : String) :
    Transaction :=
  { type := "intent_deposit"
    status := "completed"
    amount := amount
    metaAccountId := accountId
    metaMessage := messageText
    metaTimestamp := now }

/-- Per-account ledger invariant: the fixed-point balance is the sum of the
fixed-point representations of the appended (all credit-type) transaction
amounts, and is non-negative. -/
def accountInv (a : Account) : Prop :=
  a.balance = (a.transactions.map (fun t => ⌊t.amount * 1000000⌋)).sum ∧ 0 ≤ a.balance

/-- Ledger-wide invariant. -/
def ledgerInv (l : Ledger) : Prop :=
  ∀ a ∈ l, accountInv a

/-! ## Concrete test fixtures

A concrete environment for evaluating the pipeline: signature verification
succeeds except for the key `"ed25519:wrong"`, and `JSON.parse` is tabulated
on the payloads the scenarios use. -/

/-- Concrete relay environment used by the concrete scenarios. -/
def testEnv : RelayEnv :=
  { parsePublicKey := fun s => if s = "" then none else some s
    verify := fun pk _ _ => pk != "ed25519:wrong"
    decodeHex := fun _ => []
    decodeBase64 := fun _ => [1, 2, 3]
    jsonParse := fun s =>
      if s = "msg50" then
        some (.obj [("message", .str "Deposit 50 USDT to Veridoc via Intents")])
      else if s = "msgNeg" then
        some (.obj [("message", .str "Deposit -5 USDT to Veridoc via Intents")])
      else if s = "msgZero" then
        some (.obj [("message", .str "Deposit 0 USDT to Veridoc via Intents")])
      else if s = "msgExpired" then
        some (.obj [("deadline", .num 1800000),
                    ("message", .str "Deposit 50 USDT to Veridoc via Intents")])
      else none }

/-- A well-formed request for account `"alice"` depositing 50 USDT. -/
def aliceReq : RelayRequest :=
  { accountId := "alice", message := "msg50", signature := .str "c2ln",
    publicKey := "ed25519:good" }

/-- The same envelope but signed by (i.e. verifying against) a different
key. -/
def wrongKeyReq : RelayRequest :=
  { accountId := "alice", message := "msg50", signature := .str "c2ln",
    publicKey := "ed25519:wrong" }

/-- A request whose payload amount field is `"-5"`. -/
def negReq : RelayRequest :=
  { accountId := "alice", message := "msgNeg", signature := .str "c2ln",
    publicKey := "ed25519:good" }

/-- A request whose payload amount field is `"0"`. -/
def zeroReq : RelayRequest :=
  { accountId := "alice", message := "msgZero", signature := .str "c2ln",
    publicKey := "ed25519:good" }

/-- A request relaying an intent whose (ignored) deadline 1800000 ms lies
in the past at relay time 10000000 ms. -/
def expiredReq : RelayRequest :=
  { accountId := "alice", message := "msgExpired", signature := .str "c2ln",
    publicKey := "ed25519:good" }

/-- Construction options for the expired-intent scenario: built at clock 0
with the default 30-minute validity, so the deadline is 1800000 ms. -/
def c1Options : CreateIntentOptions :=
  { signerId := "alice.testnet", receiverId := "treasury.veridoc.testnet",
    tokenIn := "usdt.fakes.testnet", amountIn := "50000000",
    tokenOut := "usdt.fakes.testnet", amountOut := none,
    deadlineMinutes := none, metadata := [] }

/-- The intent built from `c1Options` at clock 0 with random suffix 42. -/
def c1Intent : TokenTransferIntent :=
  { nonce := "0-42", deadline := 1800000,
    action :=
      { signerId := "alice.testnet", receiverId := "treasury.veridoc.testnet",
        tokenIn := "usdt.fakes.testnet", amountIn := "50000000",
        tokenOut := "usdt.fakes.testnet", amountOut := none }
    metadata := [] }

/-- Construction options whose `amountIn` is the non-numeric string
`"abc"`. -/
def c7Options : CreateIntentOptions :=
  { signerId := "alice.testnet", receiverId := "treasury.veridoc.testnet",
    tokenIn := "usdt.fakes.testnet", amountIn := "abc",
    tokenOut := "usdt.fakes.testnet", amountOut := none,
    deadlineMinutes := none, metadata := [] }

/-- The intent built from `c7Options` at clock 0 with random suffix 42. -/
def c7Intent : TokenTransferIntent :=
  { nonce := "0-42", deadline := 1800000,
    action :=
      { signerId := "alice.testnet", receiverId := "treasury.veridoc.testnet",
        tokenIn := "usdt.fakes.testnet", amountIn := "abc",
        tokenOut := "usdt.fakes.testnet", amountOut := none }
    metadata := [] }

/-- Construction options with `deadlineMinutes` explicitly 0. -/
def c8Options : CreateIntentOptions :=
  { signerId := "alice.testnet", receiverId := "treasury.veridoc.testnet",
    tokenIn := "usdt.fakes.testnet", amountIn := "50000000",
    tokenOut := "usdt.fakes.testnet", amountOut := none,
    deadlineMinutes := some 0, metadata := [] }

/-- The intent built from `c8Options` at clock 1000 with random suffix 7:
its deadline equals the construction-time clock. -/
def c8Intent : TokenTransferIntent :=
  { nonce := "1000-7", deadline := 1000,
    action :=
      { signerId := "alice.testnet", receiverId := "treasury.veridoc.testnet",
        tokenIn := "usdt.fakes.testnet", amountIn := "50000000",
        tokenOut := "usdt.fakes.testnet", amountOut := none }
    metadata := [] }

/-! ## Basic lemmas about the ledger primitives -/

theorem findUser_accountId {l : Ledger} {aid : String} {u : Account}
    (h : findUser l aid = some u) : u.accountId = aid := by
  have := List.find?_some h
  simpa [beq_iff_eq] using this

theorem findUser_mem {l : Ledger} {aid : String} {u : Account}
    (h : findUser l aid = some u) : u ∈ l :=
  List.mem_of_find?_eq_some h

theorem find?_replace (u : Account) (l : Ledger) :
    List.find? (fun a => a.accountId == u.accountId)
        (l.map (fun a => if a.accountId == u.accountId then u else a)) =
      (List.find? (fun a => a.accountId == u.accountId) l).map (fun _ => u) := by
  induction l with
  | nil => rfl
  | cons a t ih =>
    by_cases h : a.accountId = u.accountId
    · rw [List.map_cons, if_pos (by simp [h]), List.find?_cons_of_pos _ (by simp),
          List.find?_cons_of_pos _ (by simp [h]), Option.map_some']
    · rw [List.map_cons, if_neg (by simp [h]), List.find?_cons_of_neg _ (by simp [h]),
          List.find?_cons_of_neg _ (by simp [h]), ih]

theorem find?_replace_ne (u : Account) {aid : String} (h : aid ≠ u.accountId) (l : Ledger) :
    List.find? (fun a => a.accountId == aid)
        (l.map (fun a => if a.accountId == u.accountId then u else a)) =
      List.find? (fun a => a.accountId == aid) l := by
  induction l with
  | nil => rfl
  | cons a t ih =>
    by_cases hm : a.accountId = u.accountId
    · rw [List.map_cons, if_pos (by simp [hm]),
          List.find?_cons_of_neg _ (by simp [Ne.symm h]),
          List.find?_cons_of_neg _ (by simp [hm, Ne.symm h]), ih]
    · rw [List.map_cons, if_neg (by simp [hm])]
      by_cases hp : a.accountId = aid
      · rw [List.find?_cons_of_pos _ (by simp [hp]), List.find?_cons_of_pos _ (by simp [hp])]
      · rw [List.find?_cons_of_neg _ (by simp [hp]), List.find?_cons_of_neg _ (by simp [hp]), ih]

theorem findUser_saveUser_self (l : Ledger) (u : Account) :
    findUser (saveUser l u) u.accountId = some u := by
  unfold saveUser findUser
  split
  next hs =>
    rw [find?_replace]
    obtain ⟨v, hv⟩ := Option.isSome_iff_exists.mp hs
    rw [hv, Option.map_some']
  next hs =>
    rw [List.find?_append]
    have hnone : List.find? (fun a : Account => a.accountId == u.accountId) l = none := by
      cases hfind : List.find? (fun a : Account => a.accountId == u.accountId) l
      · rfl
      · exact absurd (by rw [hfind]; rfl) hs
    rw [hnone]
    simp [List.find?]

theorem findUser_saveUser_ne (l : Ledger) (u : Account) {aid : String}
    (h : aid ≠ u.accountId) :
    findUser (saveUser l u) aid = findUser l aid := by
  unfold saveUser findUser
  split
  next hs => exact find?_replace_ne u h l
  next hs =>
    rw [List.find?_append]
    have hone : List.find? (fun a : Account => a.accountId == aid) [u] = none := by
      rw [List.find?_cons_of_neg _ (by simp [Ne.symm h])]
      rfl
    rw [hone, Option.or_none]

theorem mem_saveUser {l : Ledger} {u b : Account} (h : b ∈ saveUser l u) :
    b ∈ l ∨ b = u := by
  unfold saveUser at h
  split at h
  · rcases List.mem_map.mp h with ⟨a, ha, hfa⟩
    by_cases hc : (a.accountId == u.accountId) = true
    · rw [if_pos hc] at hfa
      exact .inr hfa.symm
    · rw [if_neg hc] at hfa
      exact .inl (hfa ▸ ha)
  · rcases List.mem_append.mp h with h1 | h1
    · exact .inl h1
    · right
      simpa using h1

theorem creditUser_spec (now : ℤ) (l : Ledger) (aid : String) (a : ℚ) (text : String) :
    creditUser now l aid a text =
      (.ok (((balanceOf l aid + ⌊a * 1000000⌋ : ℤ) : ℚ) / 1000000)
         (depositTx now aid a text) aid,
       saveUser l
         { accountId := aid, balance := balanceOf l aid + ⌊a * 1000000⌋,
           transactions := txsOf l aid ++ [depositTx now aid a text] }) := by
  unfold creditUser balanceOf txsOf depositTx
  cases hfind : findUser l aid with
  | none => simp [hfind]
  | some u =>
    have hacc := findUser_accountId hfind
    simp [hfind, hacc]

/-! ## Structure of the endpoint -/

theorem extractAmount_nonneg {env : RelayEnv} {m : String} {a : ℚ} {text : String}
    (h : extractAmount env m = .extracted a text) : 0 ≤ a := by
  unfold extractAmount at h
  split at h
  · simp at h
  · split at h
    · simp at h
    · split at h
      · simp at h
      · split at h
        · simp at h
        · next hcond =>
          rw [Bool.or_eq_true, not_or] at hcond
          obtain ⟨hnan, hle⟩ := hcond
          injection h with h1 h2
          subst h1
          rename_i cap _
          cases hd : jsParseFloat cap with
          | nan => rw [hd] at hnan; exact absurd rfl hnan
          | inf pos =>
            cases pos with
            | true => exact le_refl 0
            | false => rw [hd] at hle; exact absurd rfl hle
          | val q =>
            show 0 ≤ q
            rw [hd] at hle
            simp only [JSNum.le0, decide_eq_true_eq] at hle
            exact le_of_lt (lt_of_not_le hle)

theorem POST_cases (env : RelayEnv) (now : ℤ) (l : Ledger) (req : RelayRequest) :
    (POST env now l req).snd = l ∨
    ∃ a text, extractAmount env req.message = .extracted a text ∧
      POST env now l req = creditUser now l req.accountId a text := by
  unfold POST
  split
  · exact .inl rfl
  · split
    · exact .inl rfl
    · split
      · exact .inl rfl
      · split
        · exact .inl rfl
        · split
          · exact .inl rfl
          · exact .inl rfl
          · exact .inl rfl
          · next a text heq => exact .inr ⟨a, text, heq, rfl⟩

theorem POST_success (env : RelayEnv) (now : ℤ) (l : Ledger) (req : RelayRequest)
    (pk : String) (sb : List ℕ) (a : ℚ) (text : String)
    (hacc : req.accountId ≠ "") (hmsg : req.message ≠ "")
    (hsigp : sigFalsy req.signature = false) (hkey : req.publicKey ≠ "")
    (hpk : env.parsePublicKey req.publicKey = some pk)
    (hdec : decodeSignature env req.signature = some sb)
    (hver : env.verify pk req.message sb = true)
    (hex : extractAmount env req.message = .extracted a text) :
    POST env now l req = creditUser now l req.accountId a text := by
  unfold POST
  rw [if_neg (by simp [hacc, hmsg, hsigp, hkey])]
  simp only [hpk, hdec, hver, hex, Bool.not_true, Bool.false_eq_true, if_false]

/-! ## The ledger invariant -/

theorem ledger_facts {l : Ledger} (h : ledgerInv l) (aid : String) :
    balanceOf l aid = ((txsOf l aid).map (fun t => ⌊t.amount * 1000000⌋)).sum ∧
      0 ≤ balanceOf l aid := by
  unfold balanceOf txsOf
  cases hf : findUser l aid with
  | none => simp
  | some u =>
    have hu := h u (findUser_mem hf)
    simpa [accountInv] using hu

theorem ledgerInv_POST (env : RelayEnv) (now : ℤ) (l : Ledger) (req : RelayRequest)
    (h : ledgerInv l) : ledgerInv (POST env now l req).snd := by
  rcases POST_cases env now l req with hc | ⟨a, text, hex, hc⟩
  · rwa [hc]
  · rw [hc, creditUser_spec]
    intro b hb
    rcases mem_saveUser hb with hbl | rfl
    · exact h b hbl
    · have h0a := extractAmount_nonneg hex
      have hfl : 0 ≤ ⌊a * 1000000⌋ := by
        rw [Int.le_floor]
        push_cast
        positivity
      obtain ⟨hsum, hpos⟩ := ledger_facts h req.accountId
      constructor
      · simp only [List.map_append, List.sum_append, depositTx]
        rw [← hsum]
        simp
      · simp only []
        omega

/-! ## Concrete evaluations -/

theorem jsParseFloat_50 : jsParseFloat "50" = .val 50 := by
  simp only [jsParseFloat, show scanFloat "50" = .lit false ['5','0'] [] 0 from by decide,
    litVal, show digitsVal ['5','0'] = 50 from by decide,
    show digitsVal ([] : List Char) = 0 from by decide]
  norm_num [powTen]

theorem jsParseFloat_abc : jsParseFloat "abc" = .nan := by
  simp only [jsParseFloat, show scanFloat "abc" = .nan from by decide]


theorem extract_msg50 :
    extractAmount testEnv "msg50" =
      .extracted 50 "Deposit 50 USDT to Veridoc via Intents" := by
  simp only [extractAmount,
    show testEnv.jsonParse "msg50" =
      some (.obj [("message", .str "Deposit 50 USDT to Veridoc via Intents")]) from rfl,
    show messageTextOf (.obj [("message", .str "Deposit 50 USDT to Veridoc via Intents")]) =
      some "Deposit 50 USDT to Veridoc via Intents" from rfl,
    show findDepositAmount "Deposit 50 USDT to Veridoc via Intents" = some "50" from by decide,
    jsParseFloat_50, JSNum.isNaN, JSNum.le0, JSNum.toRat]
  norm_num

theorem extract_msgExpired :
    extractAmount testEnv "msgExpired" =
      .extracted 50 "Deposit 50 USDT to Veridoc via Intents" := by
  simp only [extractAmount,
    show testEnv.jsonParse "msgExpired" =
      some (.obj [("deadline", .num 1800000),
                  ("message", .str "Deposit 50 USDT to Veridoc via Intents")]) from rfl,
    show messageTextOf (.obj [("deadline", .num 1800000),
      ("message", .str "Deposit 50 USDT to Veridoc via Intents")]) =
      some "Deposit 50 USDT to Veridoc via Intents" from rfl,
    show findDepositAmount "Deposit 50 USDT to Veridoc via Intents" = some "50" from by decide,
    jsParseFloat_50, JSNum.isNaN, JSNum.le0, JSNum.toRat]
  norm_num

theorem extract_msgNeg : extractAmount testEnv "msgNeg" = .missing := by
  simp only [extractAmount,
    show testEnv.jsonParse "msgNeg" =
      some (.obj [("message", .str "Deposit -5 USDT to Veridoc via Intents")]) from rfl,
    show messageTextOf (.obj [("message", .str "Deposit -5 USDT to Veridoc via Intents")]) =
      some "Deposit -5 USDT to Veridoc via Intents" from rfl,
    show findDepositAmount "Deposit -5 USDT to Veridoc via Intents" = none from by decide]

theorem extract_msgZero : extractAmount testEnv "msgZero" = .invalid := by
  simp only [extractAmount,
    show testEnv.jsonParse "msgZero" =
      some (.obj [("message", .str "Deposit 0 USDT to Veridoc via Intents")]) from rfl,
    show messageTextOf (.obj [("message", .str "Deposit 0 USDT to Veridoc via Intents")]) =
      some "Deposit 0 USDT to Veridoc via Intents" from rfl,
    show findDepositAmount "Deposit 0 USDT to Veridoc via Intents" = some "0" from by decide,
    show scanFloat "0" = .lit false ['0'] [] 0 from by decide, jsParseFloat,
    litVal, show digitsVal ['0'] = 0 from by decide,
    show digitsVal ([] : List Char) = 0 from by decide, JSNum.isNaN, JSNum.le0]
  norm_num [powTen]

theorem POST_aliceReq (l : Ledger) :
    POST testEnv 0 l aliceReq =
      creditUser 0 l "alice" 50 "Deposit 50 USDT to Veridoc via Intents" :=
  POST_success testEnv 0 l aliceReq "ed25519:good" [1, 2, 3] 50
    "Deposit 50 USDT to Veridoc via Intents"
    (by decide) (by decide) (by decide) (by decide) rfl (by decide) rfl extract_msg50

theorem POST_expiredReq (l : Ledger) :
    POST testEnv 10000000 l expiredReq =
      creditUser 10000000 l "alice" 50 "Deposit 50 USDT to Veridoc via Intents" :=
  POST_success testEnv 10000000 l expiredReq "ed25519:good" [1, 2, 3] 50
    "Deposit 50 USDT to Veridoc via Intents"
    (by decide) (by decide) (by decide) (by decide) rfl (by decide) rfl extract_msgExpired


theorem ledger_after_one :
    (POST testEnv 0 [] aliceReq).snd =
      [⟨"alice", 50000000,
        [depositTx 0 "alice" 50 "Deposit 50 USDT to Veridoc via Intents"]⟩] := by
  rw [POST_aliceReq, creditUser_spec]
  have hfloor : (⌊(50 : ℚ) * 1000000⌋ : ℤ) = 50000000 := by norm_num
  simp [saveUser, findUser, balanceOf, txsOf, hfloor]

theorem ledger_after_two :
    (POST testEnv 0 (POST testEnv 0 [] aliceReq).snd aliceReq).snd =
      [⟨"alice", 100000000,
        [depositTx 0 "alice" 50 "Deposit 50 USDT to Veridoc via Intents",
         depositTx 0 "alice" 50 "Deposit 50 USDT to Veridoc via Intents"]⟩] := by
  rw [ledger_after_one, POST_aliceReq, creditUser_spec]
  have hfloor : (⌊(50 : ℚ) * 1000000⌋ : ℤ) = 50000000 := by norm_num
  simp [saveUser, findUser, balanceOf, txsOf, hfloor]


theorem generateNonce_0_42 : generateNonce 0 42 = "0-42" := by decide

theorem jsParseFloat_50000000 : jsParseFloat "50000000" = .val 50000000 := by
  simp only [jsParseFloat,
    show scanFloat "50000000" = .lit false ['5','0','0','0','0','0','0','0'] [] 0 from by decide,
    litVal, show digitsVal ['5','0','0','0','0','0','0','0'] = 50000000 from by decide,
    show digitsVal ([] : List Char) = 0 from by decide]
  norm_num [powTen]

theorem jsParseFloat_0 : jsParseFloat "0" = .val 0 := by
  simp only [jsParseFloat, show scanFloat "0" = .lit false ['0'] [] 0 from by decide,
    litVal, show digitsVal ['0'] = 0 from by decide,
    show digitsVal ([] : List Char) = 0 from by decide]
  norm_num [powTen]

theorem build_c1Intent : createTokenTransferIntent 0 42 c1Options = .ok c1Intent := by
  unfold createTokenTransferIntent
  rw [if_neg (by decide), if_neg (by decide),
      if_neg (by rw [show c1Options.amountIn = "50000000" from rfl, jsParseFloat_50000000]
                 simp [JSNum.le0])]
  simp only [c1Options, c1Intent, generateNonce_0_42, calculateDeadline, Option.getD]
  norm_num


theorem build_c7Intent : createTokenTransferIntent 0 42 c7Options = .ok c7Intent := by
  unfold createTokenTransferIntent
  rw [if_neg (by decide), if_neg (by decide),
      if_neg (by rw [show c7Options.amountIn = "abc" from rfl, jsParseFloat_abc]
                 simp [JSNum.le0])]
  simp only [c7Options, c7Intent, generateNonce_0_42, calculateDeadline, Option.getD]
  norm_num

theorem build_c8Intent : createTokenTransferIntent 1000 7 c8Options = .ok c8Intent := by
  unfold createTokenTransferIntent
  rw [if_neg (by decide), if_neg (by decide),
      if_neg (by rw [show c8Options.amountIn = "50000000" from rfl, jsParseFloat_50000000]
                 simp [JSNum.le0])]
  simp only [c8Options, c8Intent, show generateNonce 1000 7 = "1000-7" from by decide,
    calculateDeadline, Option.getD]
  norm_num

theorem expired_ledger :
    (POST testEnv 10000000 [] expiredReq).snd =
      [⟨"alice", 50000000,
        [depositTx 10000000 "alice" 50 "Deposit 50 USDT to Veridoc via Intents"]⟩] := by
  rw [POST_expiredReq, creditUser_spec]
  have hfloor : (⌊(50 : ℚ) * 1000000⌋ : ℤ) = 50000000 := by norm_num
  simp [saveUser, findUser, balanceOf, txsOf, hfloor]



/-- C1: the claim says every relay request whose payload deadline lies in the
past is rejected with ExpiredIntentError before any ledger mutation, even
with a valid signature.  The endpoint contains no deadline check at all
(`isIntentValid` is never called): here an intent built at clock 0 with the
default 30-minute validity (deadline 1800000 ms) is relayed at clock
10000000 ms with a valid signature and the relay answers success and
credits the account. -/
theorem C1_expired_intent_still_credited :
    createTokenTransferIntent 0 42 c1Options = .ok c1Intent ∧
    isIntentValid 10000000 c1Intent = false ∧
    (POST testEnv 10000000 [] expiredReq).fst =
      .ok 50 (depositTx 10000000 "alice" 50 "Deposit 50 USDT to Veridoc via Intents")
        "alice" ∧
    (POST testEnv 10000000 [] expiredReq).snd =
      [⟨"alice", 50000000,
        [depositTx 10000000 "alice" 50 "Deposit 50 USDT to Veridoc via Intents"]⟩] := by
  refine ⟨build_c1Intent, ?_, ?_, expired_ledger⟩
  · simp only [isIntentValid, c1Intent, decide_eq_false_iff_not, not_lt]
    norm_num
  · rw [POST_expiredReq, creditUser_spec]
    have hfloor : (⌊(50 : ℚ) * 1000000⌋ : ℤ) = 50000000 := by norm_num
    have hbal0 : balanceOf [] "alice" = 0 := by simp [balanceOf, findUser]
    norm_num [hbal0, hfloor]

/-- C2: the claim says submitting the identical signed envelope twice does
not credit the account a second time.  The endpoint has no replay
protection: relaying the same envelope `aliceReq` twice credits twice,
taking the balance from 50000000 to 100000000 micro-USDT with two
transaction records. -/
theorem C2_replay_not_prevented :
    balanceOf (POST testEnv 0 [] aliceReq).snd "alice" = 50000000 ∧
    balanceOf (POST testEnv 0 (POST testEnv 0 [] aliceReq).snd aliceReq).snd "alice" =
      100000000 ∧
    (txsOf (POST testEnv 0 (POST testEnv 0 [] aliceReq).snd aliceReq).snd "alice").length =
      2 ∧
    balanceOf (POST testEnv 0 (POST testEnv 0 [] aliceReq).snd aliceReq).snd "alice" ≠
      balanceOf (POST testEnv 0 [] aliceReq).snd "alice" := by
  refine ⟨?_, ?_, ?_, ?_⟩
  · rw [ledger_after_one]; simp [balanceOf, findUser]
  · rw [ledger_after_two]; simp [balanceOf, findUser]
  · rw [ledger_after_two]; simp [txsOf, findUser]
  · rw [ledger_after_two, ledger_after_one]
    simp [balanceOf, findUser]


/-- C3: when the supplied public key parses, the signature decodes, and
verification returns false, the endpoint answers 401 Unauthorized and
returns the ledger unchanged: no account is created and no balance or
transaction list is touched.  The result is an ordinary error value of the
total function `POST`, not a fault. -/
theorem C3_unauthorized_no_mutation (env : RelayEnv) (now : ℤ) (l : Ledger)
    (req : RelayRequest) (pk : String) (sb : List ℕ)
    (hacc : req.accountId ≠ "") (hmsg : req.message ≠ "")
    (hsigp : sigFalsy req.signature = false) (hkey : req.publicKey ≠ "")
    (hpk : env.parsePublicKey req.publicKey = some pk)
    (hdec : decodeSignature env req.signature = some sb)
    (hver : env.verify pk req.message sb = false) :
    POST env now l req =
      (.err 401 "Invalid signature: signature does not match message and public key", l) := by
  unfold POST
  rw [if_neg (by simp [hacc, hmsg, hsigp, hkey])]
  simp only [hpk, hdec, hver, Bool.not_false, if_true]

theorem C3_witness :
    POST testEnv 0 [] wrongKeyReq =
      (.err 401 "Invalid signature: signature does not match message and public key",
       []) :=
  C3_unauthorized_no_mutation testEnv 0 [] wrongKeyReq "ed25519:wrong" [1, 2, 3]
    (by decide) (by decide) (by decide) (by decide) rfl (by decide) (by decide)

theorem balanceOf_saveUser_self (l : Ledger) (u : Account) :
    balanceOf (saveUser l u) u.accountId = u.balance := by
  unfold balanceOf
  rw [findUser_saveUser_self]
  rfl

theorem txsOf_saveUser_self (l : Ledger) (u : Account) :
    txsOf (saveUser l u) u.accountId = u.transactions := by
  unfold txsOf
  rw [findUser_saveUser_self]
  rfl

/-- C4: a successful credit of display amount `a` to the request account
with prior fixed-point balance `b` stores `b + floor(a * 1000000)`, appends
exactly one `intent_deposit`/`completed` transaction of amount `a`, and
reports `newBalance` as the new stored balance divided by 1000000 (the
witness instantiates the alice / 50.00 scenario of the spec). -/
theorem C4_credit_functional (env : RelayEnv) (now : ℤ) (l : Ledger)
    (req : RelayRequest) (pk : String) (sb : List ℕ) (a : ℚ) (text : String)
    (hacc : req.accountId ≠ "") (hmsg : req.message ≠ "")
    (hsigp : sigFalsy req.signature = false) (hkey : req.publicKey ≠ "")
    (hpk : env.parsePublicKey req.publicKey = some pk)
    (hdec : decodeSignature env req.signature = some sb)
    (hver : env.verify pk req.message sb = true)
    (hex : extractAmount env req.message = .extracted a text) :
    POST env now l req =
      (.ok (((balanceOf l req.accountId + ⌊a * 1000000⌋ : ℤ) : ℚ) / 1000000)
        (depositTx now req.accountId a text) req.accountId,
       saveUser l
         { accountId := req.accountId,
           balance := balanceOf l req.accountId + ⌊a * 1000000⌋,
           transactions := txsOf l req.accountId ++ [depositTx now req.accountId a text] }) ∧
    balanceOf (POST env now l req).snd req.accountId =
      balanceOf l req.accountId + ⌊a * 1000000⌋ ∧
    txsOf (POST env now l req).snd req.accountId =
      txsOf l req.accountId ++ [depositTx now req.accountId a text] := by
  have hmain :=
    (POST_success env now l req pk sb a text hacc hmsg hsigp hkey hpk hdec hver hex).trans
      (creditUser_spec now l req.accountId a text)
  refine ⟨hmain, ?_, ?_⟩
  · rw [hmain]
    exact balanceOf_saveUser_self l _
  · rw [hmain]
    exact txsOf_saveUser_self l _

theorem C4_witness :
    (POST testEnv 0 [] aliceReq).fst =
      .ok 50 (depositTx 0 "alice" 50 "Deposit 50 USDT to Veridoc via Intents") "alice" ∧
    balanceOf (POST testEnv 0 [] aliceReq).snd "alice" = 50000000 ∧
    txsOf (POST testEnv 0 [] aliceReq).snd "alice" =
      [depositTx 0 "alice" 50 "Deposit 50 USDT to Veridoc via Intents"] := by
  obtain ⟨h1, h2, h3⟩ :=
    C4_credit_functional testEnv 0 [] aliceReq "ed25519:good" [1, 2, 3] 50
      "Deposit 50 USDT to Veridoc via Intents"
      (by decide) (by decide) (by decide) (by decide) rfl (by decide) rfl extract_msg50
  rw [show aliceReq.accountId = "alice" from rfl] at h1 h2 h3
  have hfloor : (⌊(50 : ℚ) * 1000000⌋ : ℤ) = 50000000 := by norm_num
  have hbal0 : balanceOf [] "alice" = 0 := by simp [balanceOf, findUser]
  have htxs0 : txsOf [] "alice" = [] := by simp [txsOf, findUser]
  refine ⟨?_, ?_, ?_⟩
  · rw [h1]
    norm_num [hbal0, hfloor]
  · rw [h2, hbal0, hfloor]
    norm_num
  · rw [h3, htxs0]
    simp


/-- C5 counterexample: after crediting 50.00 to a fresh account, the stored
balance is 50000000 (fixed-point micro-units) while the sum of the stored
(all credit-type) transaction amounts is 50 (display units), so the literal
invariant `balance == sum(credit transactions) - sum(debit transactions)`
over the stored fields fails. -/
theorem C5_units_counterexample :
    ((findUser (POST testEnv 0 [] aliceReq).snd "alice").map
        (fun u => ((u.balance : ℚ), (u.transactions.map Transaction.amount).sum))) =
      some (50000000, 50) ∧
    (50000000 : ℚ) ≠ 50 := by
  constructor
  · rw [ledger_after_one]
    simp [findUser, depositTx]
  · norm_num

/-- C5 amended: after any sequence of relay operations from a state
satisfying it, every account satisfies the unit-corrected invariant: the
stored balance equals the sum of `floor(amount * 1000000)` over its
appended transactions (all of which are credits; no debits exist), and the
balance is non-negative. -/
theorem C5_fixed_point_invariant (env : RelayEnv) (now : ℤ) (l : Ledger)
    (reqs : List RelayRequest) (h : ledgerInv l) :
    ledgerInv (processAll env now l reqs) := by
  induction reqs generalizing l with
  | nil => simpa [processAll] using h
  | cons r rs ih =>
    have h1 := ledgerInv_POST env now l r h
    have h2 := ih _ h1
    simpa [processAll, List.foldl_cons] using h2

theorem C5_witness :
    ledgerInv (processAll testEnv 0 [] [aliceReq]) :=
  C5_fixed_point_invariant testEnv 0 [] [aliceReq]
    (by intro a ha; exact absurd ha (List.not_mem_nil a))


/-- C6 counterexample: a payload whose amount field is `"-5"` does not
yield ParseError("invalid amount"): the extraction regex class `[\d.]`
cannot match the minus sign, so no amount is extractable and the endpoint
answers with the amount-missing error instead. -/
theorem C6_negative_amount_counterexample :
    extractAmount testEnv "msgNeg" = .missing ∧
    POST testEnv 0 [] negReq = (.err 400 "Could not extract amount from message", []) ∧
    (POST testEnv 0 [] negReq).fst ≠ .err 400 "Invalid amount in message" := by
  have hpost : POST testEnv 0 [] negReq =
      (.err 400 "Could not extract amount from message", []) := by
    unfold POST
    rw [if_neg (by decide)]
    simp only [show testEnv.parsePublicKey negReq.publicKey = some "ed25519:good" from rfl,
      show decodeSignature testEnv negReq.signature = some [1, 2, 3] from by decide,
      show testEnv.verify "ed25519:good" negReq.message [1, 2, 3] = true from rfl,
      Bool.not_true, Bool.false_eq_true, if_false,
      show extractAmount testEnv negReq.message = .missing from extract_msgNeg]
  refine ⟨extract_msgNeg, hpost, ?_⟩
  rw [hpost]
  simp

/-- C6 amended: the amount-extraction step fails with exactly the three
distinguished errors — unparsable payload (or a payload whose `message`
field is a truthy non-string, which throws into the same handler) is
`malformed`, no regex match is `missing`, and a NaN or non-positive
extracted amount is `invalid` — except that an amount field of `"-5"`
falls in the `missing` case, not `invalid`. -/
theorem C6_extraction_taxonomy (env : RelayEnv) (m : String) :
    (env.jsonParse m = none → extractAmount env m = .malformed) ∧
    (∀ j, env.jsonParse m = some j → messageTextOf j = none →
      extractAmount env m = .malformed) ∧
    (∀ j text, env.jsonParse m = some j → messageTextOf j = some text →
      findDepositAmount text = none → extractAmount env m = .missing) ∧
    (∀ j text cap, env.jsonParse m = some j → messageTextOf j = some text →
      findDepositAmount text = some cap →
      ((jsParseFloat cap).isNaN || (jsParseFloat cap).le0) = true →
      extractAmount env m = .invalid) ∧
    (∀ j text cap, env.jsonParse m = some j → messageTextOf j = some text →
      findDepositAmount text = some cap →
      ((jsParseFloat cap).isNaN || (jsParseFloat cap).le0) = false →
      extractAmount env m = .extracted (jsParseFloat cap).toRat text) := by
  refine ⟨?_, ?_, ?_, ?_, ?_⟩
  · intro h
    simp only [extractAmount, h]
  · intro j h1 h2
    simp only [extractAmount, h1, h2]
  · intro j text h1 h2 h3
    simp only [extractAmount, h1, h2, h3]
  · intro j text cap h1 h2 h3 h4
    simp only [extractAmount, h1, h2, h3, h4, if_true]
  · intro j text cap h1 h2 h3 h4
    simp only [extractAmount, h1, h2, h3, h4, Bool.false_eq_true, if_false]

theorem C6_witness :
    extractAmount testEnv "unparsable" = .malformed ∧
    extractAmount testEnv "msgZero" = .invalid := by
  constructor
  · exact (C6_extraction_taxonomy testEnv "unparsable").1 rfl
  · refine (C6_extraction_taxonomy testEnv "msgZero").2.2.2.1
      (.obj [("message", .str "Deposit 0 USDT to Veridoc via Intents")])
      "Deposit 0 USDT to Veridoc via Intents" "0" rfl rfl (by decide) ?_
    rw [jsParseFloat_0]
    simp [JSNum.isNaN, JSNum.le0]


/-- C7 counterexample: `amountIn := "abc"` does not parse to a strictly
positive number (`parseFloat` gives NaN), yet `createTokenTransferIntent`
succeeds and returns a full intent, because `NaN <= 0` is false in
JavaScript. -/
theorem C7_nan_amount_counterexample :
    jsParseFloat "abc" = .nan ∧
    createTokenTransferIntent 0 42 c7Options = .ok c7Intent := by
  exact ⟨jsParseFloat_abc, build_c7Intent⟩

/-- C7 amended: validation happens in the claimed order with the claimed
error messages and no partial intent escapes a failed check, but the
amount check only rejects when `parseFloat(amountIn) <= 0` holds; an
`amountIn` whose `parseFloat` is NaN passes validation. -/
theorem C7_validation_order (now : ℤ) (random : ℕ) (options : CreateIntentOptions) :
    (options.signerId = "" ∨ options.receiverId = "" →
      createTokenTransferIntent now random options =
        .error "signerId y receiverId son requeridos") ∧
    (options.signerId ≠ "" → options.receiverId ≠ "" →
      options.tokenIn = "" ∨ options.tokenOut = "" ∨ options.amountIn = "" →
      createTokenTransferIntent now random options =
        .error "tokenIn, tokenOut y amountIn son requeridos") ∧
    (options.signerId ≠ "" → options.receiverId ≠ "" →
      options.tokenIn ≠ "" → options.tokenOut ≠ "" → options.amountIn ≠ "" →
      (jsParseFloat options.amountIn).le0 = true →
      createTokenTransferIntent now random options =
        .error "amountIn debe ser mayor a 0") ∧
    (options.signerId ≠ "" → options.receiverId ≠ "" →
      options.tokenIn ≠ "" → options.tokenOut ≠ "" → options.amountIn ≠ "" →
      (jsParseFloat options.amountIn).le0 = false →
      createTokenTransferIntent now random options =
        .ok { nonce := generateNonce now random
              deadline := calculateDeadline now (options.deadlineMinutes.getD 30)
              action :=
                { signerId := options.signerId
                  receiverId := options.receiverId
                  tokenIn := options.tokenIn
                  amountIn := options.amountIn
                  tokenOut := options.tokenOut
                  amountOut := options.amountOut }
              metadata := options.metadata }) := by
  refine ⟨?_, ?_, ?_, ?_⟩
  · intro h
    unfold createTokenTransferIntent
    rw [if_pos h]
  · intro h1 h2 h3
    unfold createTokenTransferIntent
    rw [if_neg (by simp [h1, h2]), if_pos h3]
  · intro h1 h2 h3 h4 h5 h6
    unfold createTokenTransferIntent
    rw [if_neg (by simp [h1, h2]), if_neg (by simp [h3, h4, h5]), if_pos h6]
  · intro h1 h2 h3 h4 h5 h6
    unfold createTokenTransferIntent
    rw [if_neg (by simp [h1, h2]), if_neg (by simp [h3, h4, h5]),
        if_neg (by simp [h6])]

theorem C7_witness :
    createTokenTransferIntent 0 42
      { c1Options with signerId := "" } =
      .error "signerId y receiverId son requeridos" :=
  (C7_validation_order 0 42 { c1Options with signerId := "" }).1 (Or.inl rfl)


/-- C8 counterexample: `deadlineMinutes := 0` passes validation (no check
constrains it), and the built intent has `deadline = now`, which is not
strictly greater than the construction-time clock. -/
theorem C8_zero_deadline_counterexample :
    createTokenTransferIntent 1000 7 c8Options = .ok c8Intent ∧
    c8Intent.deadline = ((1000 : ℤ) : ℚ) ∧
    ¬(((1000 : ℤ) : ℚ) < c8Intent.deadline) ∧
    isIntentValid 1000 c8Intent = false := by
  refine ⟨build_c8Intent, by norm_num [c8Intent], by norm_num [c8Intent], ?_⟩
  simp only [isIntentValid, c8Intent, decide_eq_false_iff_not, not_lt]
  norm_num

/-- C8 amended: every built intent has
`deadline = now + deadlineMinutes * 60000` milliseconds (default 30
minutes), and the deadline is strictly greater than the construction-time
clock whenever `deadlineMinutes` is positive — in particular for the
default. -/
theorem C8_deadline_formula (now : ℤ) (random : ℕ) (options : CreateIntentOptions)
    (intent : TokenTransferIntent)
    (h : createTokenTransferIntent now random options = .ok intent) :
    intent.deadline = (now : ℚ) + options.deadlineMinutes.getD 30 * 60000 ∧
    (0 < options.deadlineMinutes.getD 30 → (now : ℚ) < intent.deadline) := by
  unfold createTokenTransferIntent at h
  split at h
  · exact absurd h (by simp)
  · split at h
    · exact absurd h (by simp)
    · split at h
      · exact absurd h (by simp)
      · injection h with h1
        subst h1
        constructor
        · show calculateDeadline now (options.deadlineMinutes.getD 30) = _
          unfold calculateDeadline
          ring
        · intro hd
          show (now : ℚ) < calculateDeadline now (options.deadlineMinutes.getD 30)
          unfold calculateDeadline
          have hpos : 0 < options.deadlineMinutes.getD 30 * 60 * 1000 := by
            have h60 : (0 : ℚ) < 60 := by norm_num
            have h1000 : (0 : ℚ) < 1000 := by norm_num
            exact mul_pos (mul_pos hd h60) h1000
          linarith

theorem C8_witness :
    c1Intent.deadline = ((0 : ℤ) : ℚ) + c1Options.deadlineMinutes.getD 30 * 60000 ∧
    ((0 : ℤ) : ℚ) < c1Intent.deadline := by
  obtain ⟨h1, h2⟩ := C8_deadline_formula 0 42 c1Options c1Intent build_c1Intent
  exact ⟨h1, h2 (by norm_num [c1Options])⟩


/-- C10: no gate of the endpoint reads `accountId` except the presence
check, so for a fixed verifying (message, signature, publicKey) triple,
replacing the accountId by any other non-empty string still succeeds, the
credit goes to exactly the new accountId, and every other account of the
ledger is untouched. -/
theorem C10_accountId_unchecked (env : RelayEnv) (now : ℤ) (l : Ledger)
    (req : RelayRequest) (a' : String) (pk : String) (sb : List ℕ) (a : ℚ) (text : String)
    (hacc : req.accountId ≠ "") (ha' : a' ≠ "") (hmsg : req.message ≠ "")
    (hsigp : sigFalsy req.signature = false) (hkey : req.publicKey ≠ "")
    (hpk : env.parsePublicKey req.publicKey = some pk)
    (hdec : decodeSignature env req.signature = some sb)
    (hver : env.verify pk req.message sb = true)
    (hex : extractAmount env req.message = .extracted a text) :
    POST env now l req = creditUser now l req.accountId a text ∧
    POST env now l { req with accountId := a' } = creditUser now l a' a text ∧
    balanceOf (POST env now l { req with accountId := a' }).snd a' =
      balanceOf l a' + ⌊a * 1000000⌋ ∧
    (∀ x, x ≠ a' →
      findUser (POST env now l { req with accountId := a' }).snd x = findUser l x) := by
  have h1 := POST_success env now l req pk sb a text hacc hmsg hsigp hkey hpk hdec hver hex
  have h2 := POST_success env now l { req with accountId := a' } pk sb a text
    ha' hmsg hsigp hkey hpk hdec hver hex
  have h2' := h2.trans (creditUser_spec now l a' a text)
  refine ⟨h1, h2, ?_, ?_⟩
  · rw [h2']
    exact balanceOf_saveUser_self l _
  · intro x hx
    rw [h2']
    exact findUser_saveUser_ne l _ hx

theorem C10_witness :
    POST testEnv 0 [] { aliceReq with accountId := "bob" } =
      creditUser 0 [] "bob" 50 "Deposit 50 USDT to Veridoc via Intents" ∧
    balanceOf (POST testEnv 0 [] { aliceReq with accountId := "bob" }).snd "bob" =
      50000000 := by
  obtain ⟨h1, h2, h3, h4⟩ :=
    C10_accountId_unchecked testEnv 0 [] aliceReq "bob" "ed25519:good" [1, 2, 3] 50
      "Deposit 50 USDT to Veridoc via Intents"
      (by decide) (by decide) (by decide) (by decide) (by decide) rfl (by decide) rfl
      extract_msg50
  refine ⟨h2, ?_⟩
  rw [h3]
  have hbal0 : balanceOf [] "bob" = 0 := by simp [balanceOf, findUser]
  have hfloor : (⌊(50 : ℚ) * 1000000⌋ : ℤ) = 50000000 := by norm_num
  rw [hbal0, hfloor]
  norm_num


end Veridoc
